import Mathlib

/-!
Verification development for `src/src/unity/python/graphlab_util/gl_pickle.py`
(Dato-Core). The module serializes a mixed object graph into one zip archive:
generic values go through the generic pickle codec, while GraphLab-managed
objects (SFrame, SArray, SGraph, model classes) are handed to their own save
routine and recorded as persistent references `(type_tag, relative_path)`.

Shallow embedding conventions:
- Filesystem paths are lists of components (`FPath`); `os.path.join` appends a
  component and `os.path.relpath` drops the prefix of the base directory.
- The filesystem is an association list from paths to file data; a later
  `fsSet` shadows earlier bindings, which models overwriting.
- `uuid.uuid4()` is modelled by a deterministic fresh-name supply indexed by a
  counter held in the pickler state (the source relies only on the generated
  names being fresh).
- The generic codec (`graphlab_util.cloudpickle` / the standard `pickle`
  module) is code of the repository and of the standard library that is not
  under `src/`; following the specification it is modelled as a structural
  object-graph codec with a persistent-reference extension point
  (`persistent_id` on save, `persistent_load` on load).
- Python exceptions become `Except PErr`; an exception that the source
  catches and merely prints is modelled by recording the message in a
  `printed` field and continuing.
-/

/-! ## Paths and the filesystem -/

abbrev FPath := List String

/-- One entry of a zip archive: the relative name inside the archive, whether
it is a bare directory entry, the per-entry comment (the source stores the
format version in the comment of the manifest entry), and the stored bytes. -/
structure PyClass where
  cname : String
  hasBases : Bool
  mro : List String
deriving DecidableEq

/-- A staged save output on the filesystem: the directory tree that an
externally managed object writes under its staged path. -/
inductive FTree where
  | file (data : String)
  | dir (children : List (String × FTree))

/-- Values of the embedded object graphs. `vobj` is an instance of an
arbitrary class carrying the directory tree its own save routine writes;
with a GraphLab class it is an externally managed object, with any other
class it is an ordinary inline-pickled instance. -/
inductive PyValue where
  | vint (n : Int)
  | vstr (s : String)
  | vnone
  | vlist (xs : List PyValue)
  | vobj (cls : PyClass) (saved : FTree)

/-- Serialized form of a value as produced by the generic codec with the
persistent-reference hook installed: inline structure everywhere, except
where the hook returned a persistent id, which is stored as a reference. -/
inductive Encoded where
  | eint (n : Int)
  | estr (s : String)
  | enone
  | elist (es : List Encoded)
  | eobj (cls : PyClass) (saved : FTree)
  | ref (tag : Option String) (relname : String)

/-- Bytes stored in a file or in an archive entry: plain text, or a pickle
stream (a sequence of serialized top-level values). -/
inductive EData where
  | text (s : String)
  | stream (es : List Encoded)

structure ZipEntry where
  ename : FPath
  isDir : Bool
  comment : String
  data : EData

/-- What a filesystem path can hold. -/
inductive FileData where
  | directory
  | tree (t : FTree)
  | regular (d : EData)
  | zipped (entries : List ZipEntry)

abbrev FS := List (FPath × FileData)

def fsGet : FS → FPath → Option FileData
  | [], _ => none
  | (q, d) :: rest, p => if p = q then some d else fsGet rest p

def fsSet (fs : FS) (p : FPath) (d : FileData) : FS := (p, d) :: fs

/-- Model of `os.path.relpath p base` for a path below the base. -/
def relpathP (p base : FPath) : FPath := p.drop base.length

/-- Python exceptions raised by the module. -/
inductive PErr where
  | RuntimeError (msg : String)
  | IOError (msg : String)
  | UnpicklingError (msg : String)
  | EOFError

/-! ## Error messages of the source -/

def pathErrMsg : String := "is not a valid path."

def fileErrMsg : String := "is not a valid file name."

def picklingErrMsg : String := "GraphLab create pickling error"

def extractErrMsg : String := "Graphlab pickle extraction error"

def unsupportedFormatMsg : String :=
  "Cannot pickle file of the given format. File must be one of (a) GLPickler archive, (b) Cloudpickle archive, or (c) python pickle archive."

def closeFailMsg : String :=
  "GraphLab pickling error: Unable to add the pickle file to the archive."

def unsupportedObjectMsg : String :=
  "GraphLab pickling Error: Unspported object. Only SFrames, SGraphs, SArrays, and Models are supported."

def openErrMsg : String := "could not open the pickle file"

def loadKeyMsg : String := "invalid load key"

/-! ## Type classification (`_is_gl_model_class`, `_is_gl_class`,
`_get_gl_class_type`) -/

/-- Translation of `_is_gl_model_class`: a class is a GraphLab model class
when it has base classes and its method resolution order has length greater
than two with the second-to-last element being the `Model` base class.
Class identity is modelled by class name. -/
def _is_gl_model_class (c : PyClass) : Bool :=
  if !c.hasBases then false
  else if c.mro.length > 2 then c.mro.getD (c.mro.length - 2) "" == "Model"
  else false

/-- Translation of `_is_gl_class`: the class is one of the GraphLab data
structure classes SFrame, SArray, SGraph, or a GraphLab model class. -/
def _is_gl_class (c : PyClass) : Bool :=
  ["SFrame", "SArray", "SGraph"].contains c.cname || _is_gl_model_class c

/-- Translation of `_get_gl_class_type`: the type tag stored in the pickle
file for a GraphLab class, or none. -/
def _get_gl_class_type (c : PyClass) : Option String :=
  if c.cname = "SFrame" then some "SFrame"
  else if c.cname = "SGraph" then some "SGraph"
  else if c.cname = "SArray" then some "SArray"
  else if _is_gl_model_class c then some "Model"
  else none

/-- The runtime class of a value (`obj.__class__`). Built-in values carry
their built-in classes, none of which is a GraphLab class. -/
def classOf : PyValue → PyClass
  | .vint _ => ⟨"int", true, ["int", "object"]⟩
  | .vstr _ => ⟨"str", true, ["str", "object"]⟩
  | .vnone => ⟨"NoneType", true, ["NoneType", "object"]⟩
  | .vlist _ => ⟨"list", true, ["list", "object"]⟩
  | .vobj cls _ => cls

/-! ## Reference resolution (`_get_gl_object_from_persistent_id`) -/

/-- The reconstructor call selected for a persistent reference: which
external load routine runs, and on which absolute extracted path. -/
inductive GLRef where
  | sframeAt (p : FPath)
  | sgraphAt (p : FPath)
  | sarrayAt (p : FPath)
  | modelAt (p : FPath)

/-- Translation of `_get_gl_object_from_persistent_id`: dispatch on the type
tag to one of the four external load routines, or raise
`pickle.UnpicklingError` for any other tag. The stored tag is an
`Option String` because the source stores the result of
`_get_gl_class_type`, whose Python type includes `None`. -/
def _get_gl_object_from_persistent_id (type_tag : Option String) (p : FPath) :
    Except PErr GLRef :=
  if type_tag = some "SFrame" then .ok (.sframeAt p)
  else if type_tag = some "SGraph" then .ok (.sgraphAt p)
  else if type_tag = some "SArray" then .ok (.sarrayAt p)
  else if type_tag = some "Model" then .ok (.modelAt p)
  else .error (.UnpicklingError unsupportedObjectMsg)

def glRefClass : GLRef → PyClass
  | .sframeAt _ => ⟨"SFrame", true, ["SFrame", "object"]⟩
  | .sgraphAt _ => ⟨"SGraph", true, ["SGraph", "object"]⟩
  | .sarrayAt _ => ⟨"SArray", true, ["SArray", "object"]⟩
  | .modelAt _ => ⟨"LoadedModel", true, ["LoadedModel", "Model", "object"]⟩

/-- Modelled from the spec: the load routines of the externally managed
types (`_gl.SFrame`, `_gl.load_graph`, `_gl.SArray`, `_gl.load_model`) are
out-of-scope collaborators not under `src/`; the object each reconstructs
from the extracted directory is abstracted as an opaque instance of the
corresponding class. -/
def glObjectFromRef (r : GLRef) : PyValue := .vobj (glRefClass r) (.dir [])

/-! ## The pickler state and the persistent-reference hook -/

/-- Fresh staged names. The source draws `uuid.uuid4()` strings; the model
draws deterministic pairwise-distinct names from a counter. -/
def uuidName (n : Nat) : String := ⟨'u' :: List.replicate n 'x'⟩

structure PicklerState where
  gl_temp_storage_path : FPath
  archive_filename : FPath
  relative_pickle_filename : String
  fileOpen : Bool
  stream : List Encoded
  fs : FS
  fresh : Nat
  printed : List String

/-- Whether glob skips a child name: the star pattern does not match names
starting with a dot. -/
def hiddenName (s : String) : Bool :=
  match s.data with
  | '.' :: _ => true
  | _ => false

/-- The archive entries appended for one staged save output: the source
iterates `glob(os.path.join(filename, t))` with the pattern star, which
lists only the immediate, non-hidden children of the staged directory (and
nothing at all when the staged path is a single file), and calls
`zf.write(abs_name, rel_name)` on each: a child file is stored with its
contents, a child directory is stored as a bare directory entry. The
relative name is `relpath(abs_name, gl_temp_storage_path)`, which is the
staged name followed by the child name. -/
def stagedEntries (stagedName : String) (t : FTree) : List ZipEntry :=
  match t with
  | .file _ => []
  | .dir cs =>
    (cs.filter fun c => !hiddenName c.1).map fun c =>
      match c.2 with
      | .file data => ⟨[stagedName, c.1], false, "", .text data⟩
      | .dir _ => ⟨[stagedName, c.1], true, "", .text ""⟩

/-- Reopening the archive in append mode and adding entries. Each loop
iteration of the source opens `ZipFile(archive, mode a)`, writes one entry
and closes again; the net effect is appending the entries in order. -/
def appendToArchive (fs : FS) (archive : FPath) (newEntries : List ZipEntry) : FS :=
  match fsGet fs archive with
  | some (.zipped es) => fsSet fs archive (.zipped (es ++ newEntries))
  | _ => fsSet fs archive (.zipped newEntries)

/-- The directory tree `obj.save(filename)` writes (the save routine itself
is an out-of-scope collaborator; the model object carries its output). -/
def savedTree : PyValue → FTree
  | .vobj _ t => t
  | _ => .dir []

/-- Translation of `GLPickler.persistent_id`: for a GraphLab-classified
object, stage a fresh name, invoke the save routine of the object on the
staged path, append the staged output into the archive, and return the pair
of type tag and staged name; for every other object return none so the
generic codec serializes it inline. -/
def persistent_id (s : PicklerState) (obj : PyValue) :
    PicklerState × Option (Option String × String) :=
  if _is_gl_class (classOf obj) then
    let relative_filename := uuidName s.fresh
    let filename := s.gl_temp_storage_path ++ [relative_filename]
    let fs1 := fsSet s.fs filename (.tree (savedTree obj))
    let fs2 := appendToArchive fs1 s.archive_filename
      (stagedEntries relative_filename (savedTree obj))
    ({ s with fs := fs2, fresh := s.fresh + 1 },
      some (_get_gl_class_type (classOf obj), relative_filename))
  else (s, none)

/-! ## The generic codec with the hook installed

Modelled from the spec: `graphlab_util.cloudpickle` and the standard
`pickle` module are not under `src/`; the specification assumes a
general-purpose object-graph codec that consults the persistent-reference
hook on every object it is about to serialize, stores a reference when the
hook returns one, and otherwise encodes the object structurally. -/

mutual
def encodeVal (s : PicklerState) (v : PyValue) : PicklerState × Encoded :=
  let p := persistent_id s v
  match p.2 with
  | some pid => (p.1, .ref pid.1 pid.2)
  | none =>
    match v with
    | .vint n => (p.1, .eint n)
    | .vstr t => (p.1, .estr t)
    | .vnone => (p.1, .enone)
    | .vobj cls t => (p.1, .eobj cls t)
    | .vlist xs =>
      let q := encodeList p.1 xs
      (q.1, .elist q.2)

def encodeList (s : PicklerState) (vs : List PyValue) :
    PicklerState × List Encoded :=
  match vs with
  | [] => (s, [])
  | v :: rest =>
    let p := encodeVal s v
    let q := encodeList p.1 rest
    (q.1, p.2 :: q.2)
end

/-! ## GLPickler -/

/-- Translation of `GLPickler.__init__`. Checks that the temporary storage
path exists (raising `RuntimeError` otherwise), opens a staged pickle file
under a fresh name, then opens the archive in mode `w` (truncating whatever
was at that path) and writes the manifest entry `pickle_file` whose comment
is the version string `1.0` and whose contents are the staged relative
pickle file name. An `IOError` while opening the staged file, or while
writing the manifest, is caught and printed and construction continues; on
a manifest write failure the staged file handle is closed again and the
archive is left as an empty zip. -/
def GLPickler.init (filename gl_temp_storage_path : FPath)
    (openStagedFails manifestWriteFails : Bool) (fs : FS) (seed : Nat) :
    Except PErr PicklerState :=
  if (fsGet fs gl_temp_storage_path).isSome = false then
    .error (.RuntimeError pathErrMsg)
  else
    let relative_pickle_filename := uuidName seed
    let staged := gl_temp_storage_path ++ [relative_pickle_filename]
    let fs1 := if openStagedFails then fs
      else fsSet fs staged (.regular (.stream []))
    let printed1 : List String := if openStagedFails then [picklingErrMsg] else []
    let fs2 := if manifestWriteFails then fsSet fs1 filename (.zipped [])
      else fsSet fs1 filename
        (.zipped [⟨["pickle_file"], false, "1.0", .text relative_pickle_filename⟩])
    let printed2 := if manifestWriteFails then printed1 ++ [picklingErrMsg]
      else printed1
    .ok { gl_temp_storage_path := gl_temp_storage_path,
          archive_filename := filename,
          relative_pickle_filename := relative_pickle_filename,
          fileOpen := !openStagedFails && !manifestWriteFails,
          stream := [], fs := fs2, fresh := seed + 1, printed := printed2 }

/-- Translation of `GLPickler.dump` (inherited `Pickler.dump` with the hook
installed): serialize one value onto the staged pickle stream. -/
def GLPickler.dump (s : PicklerState) (v : PyValue) : PicklerState :=
  let p := encodeVal s v
  { p.1 with stream := p.1.stream ++ [p.2] }

/-- Translation of `GLPickler.close`: close the staged pickle file (flushing
the stream to the staged path), then reopen the archive in append mode and
add the staged pickle file under its name relative to the temporary storage
path. Any failure inside the append block is re-raised as an `IOError`. -/
def GLPickler.close (s : PicklerState) (appendFails : Bool) :
    Except PErr PicklerState :=
  let staged := s.gl_temp_storage_path ++ [s.relative_pickle_filename]
  let fs1 := fsSet s.fs staged (.regular (.stream s.stream))
  let es := match fsGet fs1 s.archive_filename with
    | some (.zipped es) => es
    | _ => []
  if appendFails then .error (.IOError closeFailMsg)
  else
    .ok { s with
          fileOpen := false,
          fs := fsSet fs1 s.archive_filename
            (.zipped (es ++ [⟨relpathP staged s.gl_temp_storage_path, false, "",
              EData.stream s.stream⟩])) }

/-! ## GLUnpickler -/

structure UnpicklerState where
  gl_temp_storage_path : FPath
  source : EData
  fs : FS
  printed : List String

/-- The manifest lookup loop of `GLUnpickler.__init__`: iterate over the
archive entry list and keep the contents of the last entry named
`pickle_file` (both the loop and `zf.read` by name resolve duplicates to
the last occurrence). -/
def foldManifest (es : List ZipEntry) : Option EData :=
  es.foldl (fun acc e => if e.ename = ["pickle_file"] then some e.data else acc)
    none

/-- Archive bytes reused as a file name: the manifest entry stores the
relative pickle file name as plain text. -/
def dataAsName : EData → String
  | .text s => s
  | .stream _ => ""

/-- `zf.extractall(outpath)`: write every entry of the archive under the
temporary storage path, in order (a later entry of the same name
overwrites an earlier one). -/
def extractAll (outpath : FPath) (es : List ZipEntry) (fs : FS) : FS :=
  es.foldl (fun f e =>
    fsSet f (outpath ++ e.ename) (if e.isDir then .directory else .regular e.data))
    fs

/-- Translation of `GLUnpickler.__init__`. Checks that the temporary storage
path and the input file exist (`RuntimeError` otherwise). If the input is a
zip archive: locate the manifest entry `pickle_file`, raising an `IOError`
naming the accepted input kinds when it is absent; extract all entries under
the temporary storage path (an `IOError` during extraction is caught and
printed and construction continues); then open the extracted pickle file.
If the input is not a zip archive, open the input file itself directly. -/
def GLUnpickler.init (filename gl_temp_storage_path : FPath)
    (extractFails : Bool) (fs : FS) : Except PErr UnpicklerState :=
  if (fsGet fs gl_temp_storage_path).isSome = false then
    .error (.RuntimeError pathErrMsg)
  else if (fsGet fs filename).isSome = false then
    .error (.RuntimeError fileErrMsg)
  else
    match fsGet fs filename with
    | some (.zipped es) =>
      match foldManifest es with
      | none => .error (.IOError unsupportedFormatMsg)
      | some d =>
        let pickle_filename := dataAsName d
        let fs2 := if extractFails then fs else extractAll gl_temp_storage_path es fs
        let printed := if extractFails then [extractErrMsg] else []
        match fsGet fs2 (gl_temp_storage_path ++ [pickle_filename]) with
        | some (.regular src) => .ok ⟨gl_temp_storage_path, src, fs2, printed⟩
        | _ => .error (.IOError openErrMsg)
    | some (.regular d) => .ok ⟨gl_temp_storage_path, d, fs, []⟩
    | _ => .error (.IOError openErrMsg)

/-- Translation of `GLUnpickler.persistent_load`: split the persistent id
into tag and relative name, join the relative name onto the temporary
storage path, and dispatch through `_get_gl_object_from_persistent_id`. -/
def persistent_load (u : UnpicklerState) (pid : Option String × String) :
    Except PErr PyValue :=
  match _get_gl_object_from_persistent_id pid.1
      (u.gl_temp_storage_path ++ [pid.2]) with
  | .error e => .error e
  | .ok r => .ok (glObjectFromRef r)

mutual
def decodeVal (u : UnpicklerState) (e : Encoded) : Except PErr PyValue :=
  match e with
  | .eint n => .ok (.vint n)
  | .estr t => .ok (.vstr t)
  | .enone => .ok .vnone
  | .eobj cls t => .ok (.vobj cls t)
  | .elist es =>
    match decodeList u es with
    | .ok vs => .ok (.vlist vs)
    | .error er => .error er
  | .ref tag rel => persistent_load u (tag, rel)

def decodeList (u : UnpicklerState) (es : List Encoded) :
    Except PErr (List PyValue) :=
  match es with
  | [] => .ok []
  | e :: rest =>
    match decodeVal u e with
    | .ok v =>
      match decodeList u rest with
      | .ok vs => .ok (v :: vs)
      | .error er => .error er
    | .error er => .error er
end

/-- Translation of `GLUnpickler.load` (inherited `Unpickler.load` with the
resolution hook installed): read one serialized value from the source
stream, failing when the source is empty or is not a pickle stream. -/
def GLUnpickler.load (u : UnpicklerState) : Except PErr PyValue :=
  match u.source with
  | .stream (e :: _) => decodeVal u e
  | .stream [] => .error .EOFError
  | .text _ => .error (.UnpicklingError loadKeyMsg)

/-! ## Whole pipelines -/

/-- Open a file with the unpickler and load one value from it. -/
def unpickleFile (filename gl_temp_storage_path : FPath) (fs : FS) :
    Except PErr PyValue :=
  match GLUnpickler.init filename gl_temp_storage_path false fs with
  | .error e => .error e
  | .ok u => GLUnpickler.load u

/-- The full save-then-load cycle: construct a pickler, dump one value,
close, and load the produced archive file back with an unpickler. -/
def glPickleRoundTrip (filename temp1 temp2 : FPath) (fs : FS) (seed : Nat)
    (v : PyValue) : Except PErr PyValue :=
  match GLPickler.init filename temp1 false false fs seed with
  | .error e => .error e
  | .ok s0 =>
    match GLPickler.close (GLPickler.dump s0 v) false with
    | .error e => .error e
    | .ok s2 => unpickleFile filename temp2 s2.fs

/-! ## Generic values and their pure encoding -/

mutual
def genericOnly : PyValue → Bool
  | .vint _ => true
  | .vstr _ => true
  | .vnone => true
  | .vlist xs => genericOnlyList xs
  | .vobj _ _ => false

def genericOnlyList : List PyValue → Bool
  | [] => true
  | v :: vs => genericOnly v && genericOnlyList vs
end

mutual
def pureEncode : PyValue → Encoded
  | .vint n => .eint n
  | .vstr t => .estr t
  | .vnone => .enone
  | .vobj cls t => .eobj cls t
  | .vlist xs => .elist (pureEncodeList xs)

def pureEncodeList : List PyValue → List Encoded
  | [] => []
  | v :: vs => pureEncode v :: pureEncodeList vs
end

mutual
/-- Recursive enumeration of the files under a staged tree, as paths
relative to the tree root (used to state what a fully recursive archive
append would have to copy). -/
def filesUnder : FTree → List FPath
  | .file _ => [[]]
  | .dir cs => filesUnderList cs

def filesUnderList : List (String × FTree) → List FPath
  | [] => []
  | c :: cs => (filesUnder c.2).map (fun p => c.1 :: p) ++ filesUnderList cs
end

/-- Substring test used to state that an error message names the accepted
input kinds. -/
def containsSub (needle hay : String) : Bool :=
  hay.data.tails.any (fun t => needle.data.isPrefixOf t)

def mentionsAcceptedKinds (m : String) : Bool :=
  containsSub "GLPickler archive" m && containsSub "Cloudpickle archive" m &&
    containsSub "python pickle archive" m

/-! ## Basic lemmas about the filesystem model -/

theorem fsGet_fsSet_same (fs : FS) (p : FPath) (d : FileData) :
    fsGet (fsSet fs p d) p = some d := by
  simp [fsGet, fsSet]

theorem fsGet_fsSet_ne (fs : FS) (p q : FPath) (d : FileData) (h : q ≠ p) :
    fsGet (fsSet fs p d) q = fsGet fs q := by
  simp [fsGet, fsSet, h]

theorem isSome_fsGet_fsSet (fs : FS) (p q : FPath) (d : FileData)
    (h : (fsGet fs q).isSome = true) :
    (fsGet (fsSet fs p d) q).isSome = true := by
  by_cases hq : q = p
  · subst hq; simp [fsGet_fsSet_same]
  · rw [fsGet_fsSet_ne fs p q d hq]; exact h

theorem relpathP_append (a b : FPath) : relpathP (a ++ b) a = b := by
  simp [relpathP]

theorem uuidName_ne_manifest (n : Nat) : uuidName n ≠ "pickle_file" := by
  intro h
  have h2 : (uuidName n).data.head? = some 'u' := rfl
  rw [h] at h2
  exact absurd h2 (by decide)

/-! ## Classification lemmas -/

theorem persistent_id_not_gl (s : PicklerState) (v : PyValue)
    (h : _is_gl_class (classOf v) = false) : persistent_id s v = (s, none) := by
  simp [persistent_id, h]

theorem is_gl_class_has_tag (c : PyClass) (h : _is_gl_class c = true) :
    ∃ T, _get_gl_class_type c = some T := by
  by_cases h1 : c.cname = "SFrame"
  · exact ⟨"SFrame", by simp [_get_gl_class_type, h1]⟩
  by_cases h2 : c.cname = "SGraph"
  · exact ⟨"SGraph", by simp [_get_gl_class_type, h1, h2]⟩
  by_cases h3 : c.cname = "SArray"
  · exact ⟨"SArray", by simp [_get_gl_class_type, h1, h2, h3]⟩
  have hm : _is_gl_model_class c = true := by
    simp only [_is_gl_class, Bool.or_eq_true] at h
    rcases h with hc | hm
    · exfalso
      simp at hc
      rcases hc with hc | hc | hc <;> simp_all
    · exact hm
  exact ⟨"Model", by simp [_get_gl_class_type, h1, h2, h3, hm]⟩

/-! ## The hook never fires on generic values, so encoding is pure -/

theorem builtin_classes_not_gl (v : PyValue) (hv : genericOnly v = true) :
    _is_gl_class (classOf v) = false := by
  cases v with
  | vint n => rfl
  | vstr t => rfl
  | vnone => rfl
  | vlist xs => rfl
  | vobj cls t => simp [genericOnly] at hv

mutual
theorem encode_generic : ∀ (s : PicklerState) (v : PyValue),
    genericOnly v = true → encodeVal s v = (s, pureEncode v)
  | s, .vint n, _ => by
    simp [encodeVal, pureEncode, persistent_id_not_gl s (.vint n) rfl]
  | s, .vstr t, _ => by
    simp [encodeVal, pureEncode, persistent_id_not_gl s (.vstr t) rfl]
  | s, .vnone, _ => by
    simp [encodeVal, pureEncode, persistent_id_not_gl s .vnone rfl]
  | s, .vobj cls t, hv => by simp [genericOnly] at hv
  | s, .vlist xs, hv => by
    have hx : genericOnlyList xs = true := by simpa [genericOnly] using hv
    simp [encodeVal, pureEncode, persistent_id_not_gl s (.vlist xs) rfl,
      encodeList_generic s xs hx]

theorem encodeList_generic : ∀ (s : PicklerState) (vs : List PyValue),
    genericOnlyList vs = true → encodeList s vs = (s, pureEncodeList vs)
  | _, [], _ => by simp [encodeList, pureEncodeList]
  | s, v :: rest, hv => by
    have hv' : genericOnly v = true ∧ genericOnlyList rest = true := by
      simpa [genericOnlyList] using hv
    simp [encodeList, pureEncodeList, encode_generic s v hv'.1,
      encodeList_generic s rest hv'.2]
end

mutual
theorem decode_generic : ∀ (u : UnpicklerState) (v : PyValue),
    genericOnly v = true → decodeVal u (pureEncode v) = .ok v
  | u, .vint n, _ => by simp [decodeVal, pureEncode]
  | u, .vstr t, _ => by simp [decodeVal, pureEncode]
  | u, .vnone, _ => by simp [decodeVal, pureEncode]
  | u, .vobj cls t, hv => by simp [genericOnly] at hv
  | u, .vlist xs, hv => by
    have hx : genericOnlyList xs = true := by simpa [genericOnly] using hv
    simp [pureEncode, decodeVal, decodeList_generic u xs hx]

theorem decodeList_generic : ∀ (u : UnpicklerState) (vs : List PyValue),
    genericOnlyList vs = true → decodeList u (pureEncodeList vs) = .ok vs
  | _, [], _ => by simp [decodeList, pureEncodeList]
  | u, v :: rest, hv => by
    have hv' : genericOnly v = true ∧ genericOnlyList rest = true := by
      simpa [genericOnlyList] using hv
    simp [pureEncodeList, decodeList, decode_generic u v hv'.1,
      decodeList_generic u rest hv'.2]
end

/-! ## Manifest lookup lemmas -/

theorem foldl_manifest_skip : ∀ (es : List ZipEntry) (acc : Option EData),
    (∀ e ∈ es, e.ename ≠ ["pickle_file"]) →
    es.foldl (fun a e => if e.ename = ["pickle_file"] then some e.data else a) acc
      = acc
  | [], _, _ => rfl
  | e :: rest, acc, h => by
    have h1 : e.ename ≠ ["pickle_file"] := h e (List.mem_cons_self _ _)
    have h2 := foldl_manifest_skip rest acc (fun x hx => h x (List.mem_cons_of_mem _ hx))
    simp only [List.foldl_cons, if_neg h1]
    exact h2

theorem foldManifest_none (es : List ZipEntry)
    (h : ∀ e ∈ es, e.ename ≠ ["pickle_file"]) : foldManifest es = none :=
  foldl_manifest_skip es none h

/-! ## Explicit states of a failure-free save cycle -/

/-- The pickler state right after a failure-free construction. -/
def initStateM (filename temp : FPath) (fs : FS) (n : Nat) : PicklerState :=
  { gl_temp_storage_path := temp, archive_filename := filename,
    relative_pickle_filename := uuidName n, fileOpen := true, stream := [],
    fs := fsSet (fsSet fs (temp ++ [uuidName n]) (.regular (.stream [])))
      filename (.zipped [⟨["pickle_file"], false, "1.0", .text (uuidName n)⟩]),
    fresh := n + 1, printed := [] }

/-- The filesystem after a failure-free init, dump of one generic value,
and close. -/
def closedFsM (filename temp : FPath) (fs : FS) (n : Nat) (v : PyValue) : FS :=
  fsSet (fsSet (initStateM filename temp fs n).fs
      (temp ++ [uuidName n]) (.regular (.stream [pureEncode v])))
    filename
    (.zipped [⟨["pickle_file"], false, "1.0", .text (uuidName n)⟩,
              ⟨[uuidName n], false, "", .stream [pureEncode v]⟩])

theorem glpickler_init_eq (filename temp : FPath) (fs : FS) (n : Nat)
    (htemp : (fsGet fs temp).isSome = true) :
    GLPickler.init filename temp false false fs n = .ok (initStateM filename temp fs n) := by
  simp [GLPickler.init, htemp, initStateM]

theorem glpickler_dump_generic (s : PicklerState) (v : PyValue)
    (hv : genericOnly v = true) :
    GLPickler.dump s v = { s with stream := s.stream ++ [pureEncode v] } := by
  simp [GLPickler.dump, encode_generic s v hv]

theorem glpickler_close_eq (filename temp : FPath) (fs : FS) (n : Nat) (v : PyValue)
    (hv : genericOnly v = true)
    (hne : filename ≠ temp ++ [uuidName n]) :
    GLPickler.close (GLPickler.dump (initStateM filename temp fs n) v) false =
      .ok { initStateM filename temp fs n with
            stream := [pureEncode v], fileOpen := false,
            fs := closedFsM filename temp fs n v } := by
  rw [glpickler_dump_generic _ v hv]
  simp only [GLPickler.close, initStateM, closedFsM]
  simp [fsGet, fsSet, hne, relpathP_append, List.nil_append]

/-! ## The unpickler on a well-formed two-entry archive -/

theorem glunpickler_init_two_entry (fs : FS) (filename temp : FPath)
    (c1 c2 bn : String) (bd : EData)
    (htemp : (fsGet fs temp).isSome = true)
    (hbn : bn ≠ "pickle_file")
    (hfile : fsGet fs filename = some (.zipped
      [⟨["pickle_file"], false, c1, .text bn⟩, ⟨[bn], false, c2, bd⟩])) :
    GLUnpickler.init filename temp false fs =
      .ok ⟨temp, bd,
        fsSet (fsSet fs (temp ++ ["pickle_file"]) (.regular (.text bn)))
          (temp ++ [bn]) (.regular bd), []⟩ := by
  have hsome : (fsGet fs filename).isSome = true := by rw [hfile]; rfl
  simp [GLUnpickler.init, htemp, hsome, hfile, foldManifest, dataAsName,
    extractAll, hbn, fsGet_fsSet_same]

/-! ## Claim theorems -/

/-- C1: for every value composed only of generic (non-externally-managed)
values, pickling with `GLPickler.dump` followed by `GLPickler.close` and
loading the produced archive with `GLUnpickler.load` returns a value deeply
equal to the original. The hypotheses say that both temporary storage paths
exist and that the archive file is not the staged pickle file itself. -/
theorem roundtrip_generic (filename temp1 temp2 : FPath) (fs : FS) (seed : Nat)
    (v : PyValue) (hv : genericOnly v = true)
    (h1 : (fsGet fs temp1).isSome = true)
    (h2 : (fsGet fs temp2).isSome = true)
    (hne : filename ≠ temp1 ++ [uuidName seed]) :
    glPickleRoundTrip filename temp1 temp2 fs seed v = .ok v := by
  have hinit := glpickler_init_eq filename temp1 fs seed h1
  have hclose := glpickler_close_eq filename temp1 fs seed v hv hne
  have harch : fsGet (closedFsM filename temp1 fs seed v) filename =
      some (.zipped [⟨["pickle_file"], false, "1.0", .text (uuidName seed)⟩,
        ⟨[uuidName seed], false, "", .stream [pureEncode v]⟩]) := by
    simp [closedFsM, fsGet_fsSet_same]
  have ht2 : (fsGet (closedFsM filename temp1 fs seed v) temp2).isSome = true := by
    simp only [closedFsM, initStateM]
    apply isSome_fsGet_fsSet
    apply isSome_fsGet_fsSet
    apply isSome_fsGet_fsSet
    apply isSome_fsGet_fsSet
    exact h2
  have huinit := glunpickler_init_two_entry (closedFsM filename temp1 fs seed v)
    filename temp2 "1.0" "" (uuidName seed) (.stream [pureEncode v]) ht2
    (uuidName_ne_manifest seed) harch
  simp only [glPickleRoundTrip, hinit, hclose, unpickleFile, huinit,
    GLUnpickler.load]
  exact decode_generic _ v hv

/-- Witness for C1 at a concrete generic value and filesystem. -/
theorem roundtrip_generic_witness :
    genericOnly (.vlist [.vint 3, .vstr "ab"]) = true ∧
    glPickleRoundTrip ["out"] ["tmp"] ["tmp"] [(["tmp"], .directory)] 0
      (.vlist [.vint 3, .vstr "ab"]) = .ok (.vlist [.vint 3, .vstr "ab"]) :=
  ⟨rfl, roundtrip_generic ["out"] ["tmp"] ["tmp"] [(["tmp"], .directory)] 0
    (.vlist [.vint 3, .vstr "ab"]) rfl rfl rfl (by decide)⟩

theorem stagedEntries_head (name : String) (t : FTree) :
    ∀ e ∈ stagedEntries name t, e.ename.head? = some name := by
  cases t with
  | file d => intro e he; simp [stagedEntries] at he
  | dir cs =>
    intro e he
    simp only [stagedEntries, List.mem_map] at he
    obtain ⟨⟨cn, cf⟩, _, hce⟩ := he
    cases cf with
    | file data => rw [← hce]; rfl
    | dir cs2 => rw [← hce]; rfl

/-- C2: the persistent-reference hook returns none for objects whose class
is not GraphLab-managed (so they serialize inline), and for a
GraphLab-classified object it allocates a fresh staged name from the name
supply, records the save output of the object at the staged path, appends
the staged entries into the archive under the staged name as path prefix,
and returns the pair of type tag and staged name. -/
theorem persistent_id_spec (s : PicklerState) (obj : PyValue) (es : List ZipEntry)
    (harch : fsGet s.fs s.archive_filename = some (.zipped es))
    (hne : s.archive_filename ≠ s.gl_temp_storage_path ++ [uuidName s.fresh]) :
    (_is_gl_class (classOf obj) = false → persistent_id s obj = (s, none)) ∧
    (∀ cls t, obj = .vobj cls t → _is_gl_class cls = true →
      (∃ T, _get_gl_class_type cls = some T ∧
        persistent_id s obj =
          ({ s with
              fs := fsSet
                (fsSet s.fs (s.gl_temp_storage_path ++ [uuidName s.fresh]) (.tree t))
                s.archive_filename
                (.zipped (es ++ stagedEntries (uuidName s.fresh) t)),
              fresh := s.fresh + 1 },
            some (some T, uuidName s.fresh))) ∧
      ∀ e ∈ stagedEntries (uuidName s.fresh) t,
        e.ename.head? = some (uuidName s.fresh)) := by
  constructor
  · intro h; exact persistent_id_not_gl s obj h
  · intro cls t heq hgl
    subst heq
    obtain ⟨T, hT⟩ := is_gl_class_has_tag cls hgl
    refine ⟨⟨T, hT, ?_⟩, stagedEntries_head _ t⟩
    have hlook : fsGet
        (fsSet s.fs (s.gl_temp_storage_path ++ [uuidName s.fresh]) (.tree t))
        s.archive_filename = some (.zipped es) := by
      rw [fsGet_fsSet_ne _ _ _ _ hne]; exact harch
    simp [persistent_id, classOf, hgl, savedTree, appendToArchive, hlook, hT]

/-- Witness for C2: a non-GraphLab value yields none, an SFrame-classed
object yields the staged reference. -/
theorem persistent_id_spec_witness :
    persistent_id ⟨["tmp"], ["out"], "p0", true, [], [(["out"], .zipped [])], 0, []⟩
        (.vint 7) =
      (⟨["tmp"], ["out"], "p0", true, [], [(["out"], .zipped [])], 0, []⟩, none) ∧
    (∃ T, _get_gl_class_type ⟨"SFrame", true, ["SFrame", "object"]⟩ = some T ∧
      persistent_id ⟨["tmp"], ["out"], "p0", true, [], [(["out"], .zipped [])], 0, []⟩
          (.vobj ⟨"SFrame", true, ["SFrame", "object"]⟩ (.dir [("f1", .file "d")])) =
        ({ (⟨["tmp"], ["out"], "p0", true, [], [(["out"], .zipped [])], 0, []⟩ :
              PicklerState) with
            fs := fsSet
              (fsSet [(["out"], .zipped [])] (["tmp"] ++ [uuidName 0])
                (.tree (.dir [("f1", .file "d")])))
              ["out"]
              (.zipped ([] ++ stagedEntries (uuidName 0) (.dir [("f1", .file "d")]))),
            fresh := 0 + 1 },
          some (some T, uuidName 0))) :=
  ⟨(persistent_id_spec
      ⟨["tmp"], ["out"], "p0", true, [], [(["out"], .zipped [])], 0, []⟩
      (.vint 7) [] rfl (by decide)).1 rfl,
   ((persistent_id_spec
      ⟨["tmp"], ["out"], "p0", true, [], [(["out"], .zipped [])], 0, []⟩
      (.vobj ⟨"SFrame", true, ["SFrame", "object"]⟩
        (.dir [("f1", .file "d")])) [] rfl (by decide)).2 _ _ rfl rfl).1⟩

/-- C3: resolving a persistent reference whose tag is none of SFrame,
SGraph, SArray, Model raises `pickle.UnpicklingError`; the reference is
never silently skipped. -/
theorem unknown_tag_error (u : UnpicklerState) (t : Option String) (f : String)
    (h1 : t ≠ some "SFrame") (h2 : t ≠ some "SGraph")
    (h3 : t ≠ some "SArray") (h4 : t ≠ some "Model") :
    persistent_load u (t, f) = .error (.UnpicklingError unsupportedObjectMsg) := by
  simp [persistent_load, _get_gl_object_from_persistent_id, h1, h2, h3, h4]

/-- Witness for C3 at a concrete unknown tag. -/
theorem unknown_tag_error_witness :
    persistent_load ⟨["tmp"], .stream [], [], []⟩ (some "FooBar", "f0") =
      .error (.UnpicklingError unsupportedObjectMsg) :=
  unknown_tag_error _ _ _ (by decide) (by decide) (by decide) (by decide)

/-- C4: opening a zip container with no entry named pickle_file fails with
the error whose message names the accepted input kinds (GLPickler archive,
Cloudpickle archive, python pickle archive). -/
theorem missing_manifest_error (fs : FS) (filename temp : FPath)
    (es : List ZipEntry)
    (htemp : (fsGet fs temp).isSome = true)
    (hfile : fsGet fs filename = some (.zipped es))
    (hnone : ∀ e ∈ es, e.ename ≠ ["pickle_file"]) :
    GLUnpickler.init filename temp false fs =
      .error (.IOError unsupportedFormatMsg) ∧
    mentionsAcceptedKinds unsupportedFormatMsg = true := by
  have hsome : (fsGet fs filename).isSome = true := by rw [hfile]; rfl
  refine ⟨?_, by decide⟩
  simp [GLUnpickler.init, htemp, hsome, hfile, foldManifest_none es hnone]

/-- Witness for C4 at a concrete manifest-less archive. -/
theorem missing_manifest_error_witness :
    GLUnpickler.init ["arch"] ["tmp"] false
        [(["tmp"], .directory),
         (["arch"], .zipped [⟨["other"], false, "", .text "x"⟩])] =
      .error (.IOError unsupportedFormatMsg) :=
  (missing_manifest_error
    [(["tmp"], .directory), (["arch"], .zipped [⟨["other"], false, "", .text "x"⟩])]
    ["arch"] ["tmp"] [⟨["other"], false, "", .text "x"⟩] rfl rfl (by decide)).1

/-- C5: an input that is not a zip container is consumed directly and
unchanged as a plain serialized blob (the filesystem is untouched and the
source handle is the contents of the file itself), and a plain blob that
never used externalization deserializes transparently. -/
theorem fallback_plain_blob (fs : FS) (filename temp : FPath) (d : EData)
    (htemp : (fsGet fs temp).isSome = true)
    (hfile : fsGet fs filename = some (.regular d)) :
    GLUnpickler.init filename temp false fs = .ok ⟨temp, d, fs, []⟩ ∧
    (∀ v : PyValue, genericOnly v = true → d = .stream [pureEncode v] →
      unpickleFile filename temp fs = .ok v) := by
  have hsome : (fsGet fs filename).isSome = true := by rw [hfile]; rfl
  have hinit : GLUnpickler.init filename temp false fs = .ok ⟨temp, d, fs, []⟩ := by
    simp [GLUnpickler.init, htemp, hsome, hfile]
  refine ⟨hinit, ?_⟩
  intro v hv hd
  subst hd
  simp [unpickleFile, hinit, GLUnpickler.load, decode_generic _ v hv]

/-- Witness for C5 at a concrete plain blob. -/
theorem fallback_plain_blob_witness :
    GLUnpickler.init ["blob"] ["tmp"] false
        [(["tmp"], .directory),
         (["blob"], .regular (.stream [pureEncode (.vint 7)]))] =
      .ok ⟨["tmp"], .stream [pureEncode (.vint 7)],
           [(["tmp"], .directory),
            (["blob"], .regular (.stream [pureEncode (.vint 7)]))], []⟩ ∧
    unpickleFile ["blob"] ["tmp"]
        [(["tmp"], .directory),
         (["blob"], .regular (.stream [pureEncode (.vint 7)]))] =
      .ok (.vint 7) := by
  have h := fallback_plain_blob
    [(["tmp"], .directory), (["blob"], .regular (.stream [pureEncode (.vint 7)]))]
    ["blob"] ["tmp"] (.stream [pureEncode (.vint 7)]) rfl rfl
  exact ⟨h.1, h.2 (.vint 7) rfl rfl⟩

/-- C6 counterexample: a staged save output with a file in a nested
subdirectory. The file is under the staged tree (witnessed by
`filesUnder`), yet no appended archive entry carries its path: the glob
over the immediate children copies the subdirectory only as a bare
directory entry. -/
theorem append_not_recursive_counterexample :
    (filesUnder (.dir [("sub", .dir [("f", .file "x")])])).contains
      ["sub", "f"] = true ∧
    (stagedEntries "u" (.dir [("sub", .dir [("f", .file "x")])])).all
      (fun e => e.ename != ["u", "sub", "f"]) = true := by decide

/-- C6 amended: the append copies exactly the immediate non-hidden children
of the staged directory — child files with their contents, child
directories as bare directory entries — so every appended entry path has
exactly two components and no file at depth two or more is copied. -/
theorem append_top_level_only (name : String) (cs : List (String × FTree)) :
    (∀ f data, (f, FTree.file data) ∈ cs → hiddenName f = false →
      (⟨[name, f], false, "", .text data⟩ : ZipEntry) ∈
        stagedEntries name (.dir cs)) ∧
    (∀ e ∈ stagedEntries name (.dir cs), e.ename.length = 2) := by
  constructor
  · intro f data hmem hdot
    simp only [stagedEntries, List.mem_map]
    refine ⟨(f, .file data), ?_, rfl⟩
    simp [List.mem_filter, hmem, hdot]
  · intro e he
    simp only [stagedEntries, List.mem_map] at he
    obtain ⟨⟨cn, cf⟩, _, hce⟩ := he
    cases cf with
    | file data => rw [← hce]; rfl
    | dir cs2 => rw [← hce]; rfl

/-- Witness for the amended C6 at a concrete staged tree. -/
theorem append_top_level_only_witness :
    (⟨["u", "a"], false, "", .text "v"⟩ : ZipEntry) ∈
      stagedEntries "u" (.dir [("a", .file "v"), ("sub", .dir [("f", .file "x")])]) ∧
    (∀ e ∈ stagedEntries "u"
        (.dir [("a", .file "v"), ("sub", .dir [("f", .file "x")])]),
      e.ename.length = 2) :=
  ⟨(append_top_level_only "u"
      [("a", .file "v"), ("sub", .dir [("f", .file "x")])]).1 "a" "v"
      (by simp) rfl,
   (append_top_level_only "u"
      [("a", .file "v"), ("sub", .dir [("f", .file "x")])]).2⟩

/-- Number of manifest entries in the archive at a path. -/
def manifestEntryCount (fs : FS) (p : FPath) : Nat :=
  match fsGet fs p with
  | some (.zipped es) => (es.filter fun e => e.ename == ["pickle_file"]).length
  | _ => 0

/-- The filesystem after constructing a pickler and dumping one value,
with `close` never called. -/
def fsAfterInitDumpNoClose : FS :=
  match GLPickler.init ["out"] ["tmp"] false false [(["tmp"], .directory)] 0 with
  | .ok s => (GLPickler.dump s (.vint 3)).fs
  | .error _ => []

/-- C7 counterexample: after construction and dump with `close` never
called, the archive already contains one manifest entry named
`pickle_file` — not zero as the claim states. -/
theorem manifest_present_without_close :
    manifestEntryCount fsAfterInitDumpNoClose ["out"] = 1 := by rfl

/-- C7 amended: the manifest entry is written exactly once, but at
construction (before any dump), not at close; an archive whose pickler was
never closed contains the manifest and no graph-blob entry (so the blob
name the manifest records resolves to nothing, leaving the archive
unusable), and close appends exactly the graph-blob entry. -/
theorem manifest_once_at_construction (fs : FS) (filename temp : FPath) (n : Nat)
    (v : PyValue) (hv : genericOnly v = true)
    (htemp : (fsGet fs temp).isSome = true)
    (hne : filename ≠ temp ++ [uuidName n]) :
    (∀ s, GLPickler.init filename temp false false fs n = .ok s →
      fsGet s.fs filename =
        some (.zipped [⟨["pickle_file"], false, "1.0", .text (uuidName n)⟩]) ∧
      manifestEntryCount (GLPickler.dump s v).fs filename = 1) ∧
    (∀ s s2, GLPickler.init filename temp false false fs n = .ok s →
      GLPickler.close (GLPickler.dump s v) false = .ok s2 →
      fsGet s2.fs filename = some (.zipped
        [⟨["pickle_file"], false, "1.0", .text (uuidName n)⟩,
         ⟨[uuidName n], false, "", .stream [pureEncode v]⟩])) := by
  have hinit := glpickler_init_eq filename temp fs n htemp
  constructor
  · intro s hs
    rw [hinit] at hs
    injection hs with hs
    subst hs
    refine ⟨by simp [initStateM, fsGet_fsSet_same], ?_⟩
    rw [glpickler_dump_generic _ v hv]
    simp [manifestEntryCount, initStateM, fsGet_fsSet_same]
  · intro s s2 hs hc
    rw [hinit] at hs
    injection hs with hs
    subst hs
    rw [glpickler_close_eq filename temp fs n v hv hne] at hc
    injection hc with hc
    subst hc
    simp [closedFsM, fsGet_fsSet_same]

/-- Witness for the amended C7 at a concrete archive path. -/
theorem manifest_once_at_construction_witness :
    fsGet (initStateM ["out"] ["tmp"] [(["tmp"], .directory)] 0).fs ["out"] =
      some (.zipped [⟨["pickle_file"], false, "1.0", .text (uuidName 0)⟩]) ∧
    manifestEntryCount
      (GLPickler.dump (initStateM ["out"] ["tmp"] [(["tmp"], .directory)] 0)
        (.vint 3)).fs ["out"] = 1 :=
  (manifest_once_at_construction [(["tmp"], .directory)] ["out"] ["tmp"] 0
    (.vint 3) rfl rfl (by decide)).1
    (initStateM ["out"] ["tmp"] [(["tmp"], .directory)] 0)
    (glpickler_init_eq ["out"] ["tmp"] [(["tmp"], .directory)] 0 rfl)

/-- C8 counterexample: a container whose manifest comment records version
9.9 — which is not the accepted version 1.0 — is loaded successfully; no
version error of any kind is raised. -/
theorem version_not_checked_counterexample :
    unpickleFile ["out"] ["tmp"]
      [(["tmp"], .directory),
       (["out"], .zipped [⟨["pickle_file"], false, "9.9", .text "blob0"⟩,
                          ⟨["blob0"], false, "", .stream [.eint 3]⟩])] =
      .ok (.vint 3) := by rfl

/-- C8 amended: the loader never reads the version recorded in the manifest
comment; a well-formed container deserializes successfully whatever version
string its manifest records. -/
theorem version_never_checked (c : String) (v : PyValue) (fs : FS)
    (filename temp : FPath) (bn : String)
    (hv : genericOnly v = true)
    (htemp : (fsGet fs temp).isSome = true)
    (hbn : bn ≠ "pickle_file")
    (hfile : fsGet fs filename = some (.zipped
      [⟨["pickle_file"], false, c, .text bn⟩,
       ⟨[bn], false, "", .stream [pureEncode v]⟩])) :
    unpickleFile filename temp fs = .ok v := by
  have huinit := glunpickler_init_two_entry fs filename temp c "" bn
    (.stream [pureEncode v]) htemp hbn hfile
  simp [unpickleFile, huinit, GLUnpickler.load, decode_generic _ v hv]

/-- Witness for the amended C8 at the concrete version string 2.7. -/
theorem version_never_checked_witness :
    unpickleFile ["out"] ["tmp"]
      [(["tmp"], .directory),
       (["out"], .zipped [⟨["pickle_file"], false, "2.7", .text "b0"⟩,
                          ⟨["b0"], false, "", .stream [pureEncode (.vstr "hi")]⟩])] =
      .ok (.vstr "hi") :=
  version_never_checked "2.7" (.vstr "hi")
    [(["tmp"], .directory),
     (["out"], .zipped [⟨["pickle_file"], false, "2.7", .text "b0"⟩,
                        ⟨["b0"], false, "", .stream [pureEncode (.vstr "hi")]⟩])]
    ["out"] ["tmp"] "b0" rfl rfl (by decide) rfl

/-- C9 counterexample: with the open of the staged pickle file failing at
pickler construction, construction nevertheless returns successfully — the
failure is absorbed, not surfaced. -/
theorem io_error_absorbed_counterexample :
    (GLPickler.init ["out"] ["tmp"] true false
      [(["tmp"], .directory)] 0).isOk = true := by rfl

/-- C9 amended: a failure to open the staged pickle file at pickler
construction, and a failure to extract the archive at unpickler
construction, are caught and printed with construction continuing (the
former still writes the manifest, the latter leaves the filesystem
untouched and proceeds to open the staged path); only a failure inside the
append block of close surfaces, as a raised `IOError`. -/
theorem io_failure_propagation (fs : FS) (filename temp : FPath) (n : Nat)
    (es : List ZipEntry) (bn : String) (d : EData)
    (htemp : (fsGet fs temp).isSome = true)
    (harch : fsGet fs filename = some (.zipped es))
    (hm : foldManifest es = some (.text bn))
    (hpre : fsGet fs (temp ++ [bn]) = some (.regular d)) :
    (GLPickler.init filename temp true false fs n =
      .ok { gl_temp_storage_path := temp, archive_filename := filename,
            relative_pickle_filename := uuidName n, fileOpen := false,
            stream := [],
            fs := fsSet fs filename
              (.zipped [⟨["pickle_file"], false, "1.0", .text (uuidName n)⟩]),
            fresh := n + 1, printed := [picklingErrMsg] }) ∧
    (GLUnpickler.init filename temp true fs = .ok ⟨temp, d, fs, [extractErrMsg]⟩) ∧
    (∀ s : PicklerState, GLPickler.close s true = .error (.IOError closeFailMsg)) := by
  refine ⟨?_, ?_, ?_⟩
  · simp [GLPickler.init, htemp]
  · have hsome : (fsGet fs filename).isSome = true := by rw [harch]; rfl
    simp [GLUnpickler.init, htemp, hsome, harch, hm, dataAsName, hpre]
  · intro s; simp [GLPickler.close]

/-- Witness for the amended C9 at a concrete filesystem where the staged
pickle file already exists under the temporary storage path. -/
theorem io_failure_propagation_witness :
    (GLPickler.init ["out"] ["tmp"] true false
        [(["tmp"], .directory), (["tmp", "b0"], .regular (.text "z")),
         (["out"], .zipped [⟨["pickle_file"], false, "1.0", .text "b0"⟩])]
        0).isOk = true ∧
    GLUnpickler.init ["out"] ["tmp"] true
        [(["tmp"], .directory), (["tmp", "b0"], .regular (.text "z")),
         (["out"], .zipped [⟨["pickle_file"], false, "1.0", .text "b0"⟩])] =
      .ok ⟨["tmp"], .text "z",
        [(["tmp"], .directory), (["tmp", "b0"], .regular (.text "z")),
         (["out"], .zipped [⟨["pickle_file"], false, "1.0", .text "b0"⟩])],
        [extractErrMsg]⟩ ∧
    GLPickler.close ⟨["t"], ["o"], "p", true, [], [], 0, []⟩ true =
      .error (.IOError closeFailMsg) := by
  have h := io_failure_propagation
    [(["tmp"], .directory), (["tmp", "b0"], .regular (.text "z")),
     (["out"], .zipped [⟨["pickle_file"], false, "1.0", .text "b0"⟩])]
    ["out"] ["tmp"] 0 [⟨["pickle_file"], false, "1.0", .text "b0"⟩] "b0"
    (.text "z") rfl rfl rfl rfl
  exact ⟨by rw [h.1]; rfl, h.2.1, h.2.2 _⟩

/-- C10: constructing a pickler at a path where a file already exists
opens the archive in write mode there: after construction — before any
dump — the path holds a fresh zip containing only the manifest entry,
whatever the pre-existing contents were. -/
theorem constructor_truncates_existing (fs : FS) (filename temp : FPath)
    (n : Nat) (d : FileData)
    (htemp : (fsGet fs temp).isSome = true)
    (_hexists : fsGet fs filename = some d) :
    ∃ s, GLPickler.init filename temp false false fs n = .ok s ∧
      fsGet s.fs filename =
        some (.zipped [⟨["pickle_file"], false, "1.0", .text (uuidName n)⟩]) :=
  ⟨initStateM filename temp fs n, glpickler_init_eq filename temp fs n htemp,
   by simp [initStateM, fsGet_fsSet_same]⟩

/-- Witness for C10: a pre-existing regular file is destroyed by
construction. -/
theorem constructor_truncates_existing_witness :
    fsGet [(["tmp"], .directory), (["out"], .regular (.text "precious"))]
      ["out"] = some (.regular (.text "precious")) ∧
    ∃ s, GLPickler.init ["out"] ["tmp"] false false
        [(["tmp"], .directory), (["out"], .regular (.text "precious"))] 0 = .ok s ∧
      fsGet s.fs ["out"] =
        some (.zipped [⟨["pickle_file"], false, "1.0", .text (uuidName 0)⟩]) :=
  ⟨rfl, constructor_truncates_existing
    [(["tmp"], .directory), (["out"], .regular (.text "precious"))]
    ["out"] ["tmp"] 0 (.regular (.text "precious")) rfl rfl⟩
